import Mathlib

/-!
Verification of the resumable download queue and throttling engine
(backend/app/tasks/downloads.py, backend/app/api/endpoints/downloads.py,
backend/app/models/downloads.py).

The Python source is shallowly embedded: SQLAlchemy rows become Lean
structures, the task store becomes a list of rows, wall-clock time is an
explicit rational, the HTTP layer is an oracle function, and every
db.commit is logged so that persisted snapshots are observable.
-/

namespace XtreamDL

/-- Download task status, from models/downloads.py DownloadStatus. -/
inductive DownloadStatus where
  | pending
  | downloading
  | completed
  | failed
  | paused
  | cancelled
deriving DecidableEq, Repr

/-- A row of download_tasks, from models/downloads.py DownloadTask.
Timestamps are naturals (seconds); float columns are rationals. -/
structure Task where
  id : Nat
  subscriptionId : Nat
  mediaType : String
  mediaId : String
  title : String := ""
  url : String := ""
  savePath : Option String := none
  status : DownloadStatus := .pending
  progress : ℚ := 0
  fileSize : Option Nat := none
  downloadedBytes : Nat := 0
  createdAt : Nat := 0
  startedAt : Option Nat := none
  completedAt : Option Nat := none
  pausedAt : Option Nat := none
  errorMessage : Option String := none
  taskId : Option String := none
  priority : Int := 0
  retryCount : Nat := 0
  maxRetries : Nat := 3
  nextRetryAt : Option Nat := none
  retryDelaySeconds : Nat := 60
  speedLimitKbps : Option Nat := none
  currentSpeedKbps : ℚ := 0
  estimatedTimeRemaining : Option Int := none
  scheduledStartAt : Option Nat := none
  scheduledEndAt : Option Nat := none
deriving DecidableEq, Repr

/-- A row of subscriptions (only the fields the download engine reads). -/
structure Subscription where
  id : Nat
  isActive : Bool := true
  maxParallelDownloads : Option Nat := some 2
deriving DecidableEq, Repr

/-- The singleton download_settings_global row, with the column defaults of
models/downloads.py DownloadSettingsGlobal. -/
structure DownloadSettingsGlobal where
  globalSpeedLimitKbps : Nat := 1024
  perDownloadSpeedLimitKbps : Option Nat := none
  quietHoursEnabled : Bool := true
  quietHoursStart : String := "00:00"
  quietHoursEnd : String := "08:00"
  pauseDuringQuietHours : Bool := true
  downloadMode : String := "parallel"
  defaultMaxRetries : Nat := 3
  retryDelayBaseSeconds : Nat := 60
  retryDelayMultiplier : ℚ := 2
  maxRedirects : Nat := 10
  connectionTimeoutSeconds : Nat := 30
  keepCompletedDays : Nat := 30
  keepFailedDays : Nat := 7
  autoCleanupEnabled : Bool := true
deriving DecidableEq, Repr

/-- Find a task row by primary key (query(DownloadTask).filter(id == tid).first()). -/
def findTask (tasks : List Task) (tid : Nat) : Option Task :=
  tasks.find? (fun t => t.id == tid)

/-- Full-row update of one task (the ORM mutates the row in place and commits). -/
def updateTask (tasks : List Task) (u : Task) : List Task :=
  tasks.map (fun x => if x.id == u.id then u else x)

/-- Split a character list at every occurrence of the separator. -/
def splitListOn (sep : Char) : List Char → List (List Char)
  | [] => [[]]
  | c :: rest =>
    match splitListOn sep rest with
    | [] => [[c]]
    | g :: gs => if c = sep then [] :: g :: gs else (c :: g) :: gs

/-- Read a nonempty all-digit character list as a number. -/
def charsToNat (cs : List Char) : Option Nat :=
  if cs = [] then none
  else if cs.all Char.isDigit then
    some (cs.foldl (fun n c => n * 10 + (c.toNat - 48)) 0)
  else none

/-- Parse an HH:MM string as minutes of the day, as datetime.strptime with
format %H:%M does (including the 0-23 and 0-59 bounds checks); none
models a ValueError. -/
def parseHHMM (s : String) : Option Nat :=
  match splitListOn ':' s.toList with
  | [h, m] =>
    match charsToNat h, charsToNat m with
    | some hh, some mm => if hh < 24 ∧ mm < 60 then some (hh * 60 + mm) else none
    | _, _ => none
  | _ => none

/-- tasks/downloads.py is_quiet_hours, lines 58-72.  The argument nowMin is
the current time of day in minutes.  Note the function reads only the
start and end strings: quiet_hours_enabled and pause_during_quiet_hours
are never consulted, and no caller of this helper exists in the code. -/
def is_quiet_hours (settings : DownloadSettingsGlobal) (nowMin : Nat) : Bool :=
  if settings.quietHoursStart = "" ∨ settings.quietHoursEnd = "" then false
  else
    match parseHHMM settings.quietHoursStart, parseHHMM settings.quietHoursEnd with
    | some s, some e =>
      if s ≤ e then decide (s ≤ nowMin ∧ nowMin ≤ e)
      else decide (s ≤ nowMin ∨ nowMin ≤ e)
    | _, _ => false

/-- The effective maximum retry number: settings.default_max_retries or 3
(Python or treats 0 as falsy), tasks/downloads.py line 550. -/
def effectiveMaxRetries (s : DownloadSettingsGlobal) : Nat :=
  if s.defaultMaxRetries = 0 then 3 else s.defaultMaxRetries

/-- The except branch of download_media_task, tasks/downloads.py lines
545-563: on a transfer failure increment retry_count and either re-arm the
task as PENDING with a deferred re-dispatch (the returned delay, in
seconds) or mark it FAILED.  The delay is 60 * 2 ^ (retry_count - 1):
the 60 second base is a literal in the source. -/
def retryOnFailure (s : DownloadSettingsGlobal) (t : Task) (err : String) (now : Nat) :
    Task × Option Nat :=
  let rc := t.retryCount + 1
  let maxR := effectiveMaxRetries s
  if rc < maxR then
    let delay := 60 * 2 ^ (rc - 1)
    ({ t with retryCount := rc, status := .pending,
              nextRetryAt := some (now + delay),
              errorMessage := some ("Retry " ++ toString rc ++ "/" ++ toString maxR ++ ": " ++ err) },
     some delay)
  else
    ({ t with retryCount := rc, status := .failed, errorMessage := some err }, none)

/-- Trace of a task every one of whose transfer attempts fails: each
scheduled re-dispatch is delivered after its delay and fails again
(attempt duration is modelled as zero).  Returns the final row and the
list of (delay, re-armed row) pairs, one per deferred re-dispatch. -/
def alwaysFailTrace (s : DownloadSettingsGlobal) (err : String) :
    Nat → Task → Nat → Task × List (Nat × Task)
  | 0, t, _ => (t, [])
  | fuel + 1, t, now =>
    match retryOnFailure s t err now with
    | (t2, none) => (t2, [])
    | (t2, some d) =>
      let r := alwaysFailTrace s err fuel t2 (now + d)
      (r.1, (d, t2) :: r.2)

/-- State at the web API boundary: the task rows and the files on disk
(path, size in bytes). -/
structure ApiState where
  tasks : List Task
  files : List (String × Nat)
deriving DecidableEq, Repr

/-- Result of the cancel endpoint. -/
structure CancelOut where
  state : ApiState
  terminated : Option String := none
  httpError : Option Nat := none
deriving DecidableEq, Repr

/-- api/endpoints/downloads.py cancel_download, lines 249-269: if the task
is DOWNLOADING, ask the dispatch (celery revoke, when a handle is stored)
to terminate it and mark the row CANCELLED; otherwise delete the row.
The endpoint contains no filesystem operation, so files pass through. -/
def cancel_download (s : ApiState) (tid : Nat) : CancelOut :=
  match findTask s.tasks tid with
  | none => { state := s, httpError := some 404 }
  | some task =>
    if task.status = .downloading then
      { state := { s with tasks := updateTask s.tasks { task with status := .cancelled } },
        terminated := task.taskId }
    else
      { state := { s with tasks := s.tasks.filter (fun t => t.id != tid) } }

/-- api/endpoints/downloads.py retry_download, lines 271-288: reset any
found task to PENDING, clear the error and next_retry_at, zero
retry_count.  Progress is not reset. -/
def retry_download (tasks : List Task) (tid : Nat) : Except Nat (List Task) :=
  match findTask tasks tid with
  | none => .error 404
  | some task =>
    .ok (updateTask tasks
      { task with status := .pending, errorMessage := none, retryCount := 0, nextRetryAt := none })

/-- The PENDING row inserted by the enqueue endpoint (lines 146-157). -/
def enqueueNewTask (subId : Nat) (mediaType mediaId title url : String)
    (newId now : Nat) : Task :=
  { id := newId, subscriptionId := subId, mediaType := mediaType, mediaId := mediaId,
    title := title, url := url, status := .pending, createdAt := now }

/-- Result of the enqueue endpoint. -/
structure QueueOut where
  tasks : List Task
  returnedId : Nat
  returnedStatus : DownloadStatus
  created : Bool
  message : Option String := none
deriving DecidableEq, Repr

/-- api/endpoints/downloads.py queue_download, lines 60-163, with the
catalog collaborator abstracted: title and url arrive resolved.  The
dedup check (lines 136-144) returns the first task matching
(subscription, media id, media type) when its status is PENDING,
DOWNLOADING or COMPLETED; in every other case a new PENDING row is
inserted (line 146-157). -/
def queue_download (subs : List Subscription) (tasks : List Task)
    (subId : Nat) (mediaType mediaId title url : String)
    (newId now : Nat) : Except Nat QueueOut :=
  match subs.find? (fun s => s.id == subId) with
  | none => .error 404
  | some _ =>
    let newTask : Task := enqueueNewTask subId mediaType mediaId title url newId now
    match tasks.find? (fun t =>
        t.subscriptionId == subId && t.mediaId == mediaId && t.mediaType == mediaType) with
    | some existing =>
      if existing.status = .pending ∨ existing.status = .downloading ∨
          existing.status = .completed then
        .ok { tasks := tasks, returnedId := existing.id, returnedStatus := existing.status,
              created := false, message := some "Already in list" }
      else
        .ok { tasks := tasks ++ [newTask], returnedId := newId,
              returnedStatus := .pending, created := true }
    | none =>
      .ok { tasks := tasks ++ [newTask], returnedId := newId,
            returnedStatus := .pending, created := true }

/-- The crash recovery sweep of check_auto_downloads, tasks/downloads.py
lines 636-640: every DOWNLOADING row, without any liveness check, is set
back to PENDING with an explanatory error message. -/
def recovery_sweep (tasks : List Task) : List Task :=
  tasks.map (fun t =>
    if t.status = .downloading then
      { t with status := .pending, errorMessage := some "Recovery: interrupted by restart" }
    else t)

/-- Sort key of the sequential branch: (x.priority or 0, x.created_at). -/
def pyKey (t : Task) : Int × Nat := (t.priority, t.createdAt)

/-- Strict lexicographic order on the sort key. -/
def keyLt (a b : Int × Nat) : Prop := a.1 < b.1 ∨ (a.1 = b.1 ∧ a.2 < b.2)

instance (a b : Int × Nat) : Decidable (keyLt a b) := by
  unfold keyLt; infer_instance

/-- Stable insertion for the Python list.sort(key=..., reverse=True):
descending by key, original order kept on equal keys. -/
def insertRev (t : Task) : List Task → List Task
  | [] => [t]
  | x :: xs => if keyLt (pyKey t) (pyKey x) then x :: insertRev t xs else t :: x :: xs

/-- all_pending.sort(key=lambda x: (x.priority or 0, x.created_at),
reverse=True), tasks/downloads.py line 590: Python sorts ascending by key
and reverse=True flips every comparison, so the list ends up descending
by (priority, created_at) with ties in original order. -/
def pySortRev (l : List Task) : List Task := l.foldr insertRev []

/-- Stable insertion realising ORDER BY priority DESC, created_at ASC
(tasks/downloads.py line 614). -/
def insertPC (t : Task) : List Task → List Task
  | [] => [t]
  | x :: xs =>
    if t.priority < x.priority ∨ (t.priority = x.priority ∧ x.createdAt < t.createdAt) then
      x :: insertPC t xs
    else t :: x :: xs

/-- The parallel-branch pending query order: priority descending, then
creation time ascending. -/
def orderByPriorityCreated (l : List Task) : List Task := l.foldr insertPC []

/-- The sequential branch gathers PENDING tasks of every active
subscription, in subscription order (lines 580-587). -/
def gatherPending (subs : List Subscription) (tasks : List Task) : List Task :=
  match subs with
  | [] => []
  | sub :: rest =>
    if sub.isActive then
      tasks.filter (fun t => t.subscriptionId == sub.id && t.status == DownloadStatus.pending)
        ++ gatherPending rest tasks
    else gatherPending rest tasks

/-- Result of one queue processor run: the updated store and the ids
handed to download_media_task.delay, in dispatch order. -/
structure QueueRunOut where
  tasks : List Task
  dispatched : List Nat
deriving DecidableEq, Repr

/-- The per-subscription promotion loop of the parallel branch (lines
616-625): walk the selected PENDING rows, skip those whose scheduled
start is in the future, mark the rest DOWNLOADING and dispatch them. -/
def promoteSelected (now : Nat) : List Task → List Task → List Task × List Nat
  | tasks, [] => (tasks, [])
  | tasks, d :: rest =>
    match d.scheduledStartAt with
    | some ts =>
      if now < ts then promoteSelected now tasks rest
      else
        let tasks2 := updateTask tasks { d with status := .downloading, startedAt := some now }
        let r := promoteSelected now tasks2 rest
        (r.1, d.id :: r.2)
    | none =>
      let tasks2 := updateTask tasks { d with status := .downloading, startedAt := some now }
      let r := promoteSelected now tasks2 rest
      (r.1, d.id :: r.2)

/-- The parallel branch of process_download_queue (lines 601-625): for
each active subscription compute the free slots and promote that many
eligible PENDING tasks in (priority DESC, created_at ASC) order. -/
def parallelForSubs (now : Nat) : List Subscription → List Task → List Task × List Nat
  | [], tasks => (tasks, [])
  | sub :: rest, tasks =>
    let activeCount := (tasks.filter (fun t =>
      t.subscriptionId == sub.id && t.status == DownloadStatus.downloading)).length
    let maxParallel := match sub.maxParallelDownloads with
      | some m => if m = 0 then 2 else m
      | none => 2
    let available := maxParallel - activeCount
    let step :=
      if 0 < available then
        let selected := (orderByPriorityCreated (tasks.filter (fun t =>
          t.subscriptionId == sub.id && t.status == DownloadStatus.pending))).take available
        promoteSelected now tasks selected
      else (tasks, [])
    let r := parallelForSubs now rest step.1
    (r.1, step.2 ++ r.2)

/-- tasks/downloads.py process_download_queue, lines 569-627.  Sequential
mode: if any task anywhere is DOWNLOADING do nothing; otherwise sort the
gathered PENDING tasks with the reverse=True tuple sort, look only at the
head, and promote it unless its scheduled start is in the future.
Parallel mode: per-subscription slot filling.  Quiet hours are not
consulted anywhere in this function. -/
def process_download_queue (settings : DownloadSettingsGlobal)
    (subs : List Subscription) (tasks : List Task) (now : Nat) : QueueRunOut :=
  if settings.downloadMode = "sequential" then
    let totalActive := (tasks.filter (fun t => t.status == DownloadStatus.downloading)).length
    if 1 ≤ totalActive then { tasks := tasks, dispatched := [] }
    else
      match pySortRev (gatherPending subs tasks) with
      | [] => { tasks := tasks, dispatched := [] }
      | d :: _ =>
        let eligible : Bool := match d.scheduledStartAt with
          | some ts => decide (ts ≤ now)
          | none => true
        if eligible then
          { tasks := updateTask tasks { d with status := .downloading, startedAt := some now },
            dispatched := [d.id] }
        else { tasks := tasks, dispatched := [] }
  else
    let activeSubs := subs.filter (fun s => s.isActive)
    let r := parallelForSubs now activeSubs tasks
    { tasks := r.1, dispatched := r.2 }

/-- An HTTP response as seen by the transfer worker: the status code, the
content-length header, the total parsed out of a content-range header
(none when the header is absent, has no slash, or carries a star), and
the body as the list of chunk sizes yielded by iter_bytes. -/
structure HttpResponse where
  statusCode : Nat
  contentLength : Option Nat := none
  contentRangeTotal : Option Nat := none
  body : List Nat := []
deriving DecidableEq, Repr

/-- The environment of one worker invocation: the remote server (argument
is the Range start when a Range header is sent; none models a raised
network or timeout error), the content-length answered to the HEAD probe
of the 416 branch (none models a failed probe or a missing header), the
status read back by the k-th db.refresh (external pause and cancel writes
land here), and the wall-clock time consumed receiving the k-th chunk. -/
structure NetEnv where
  respond : Option Nat → Option HttpResponse
  headContentLength : Option Nat := none
  statusAt : Nat → DownloadStatus := fun _ => .downloading
  readDelay : Nat → ℚ := fun _ => 0

/-- The in-flight state of _perform_download_stream: the in-memory ORM
row, the last committed row, the ordered log of committed snapshots, the
bytes currently in the partial file, the wall clock, and instrumentation
counters (refreshes, chunks, HTTP requests, restarts caused by a 200
answer to a range request). -/
structure StreamState where
  task : Task
  dbRow : Task
  commits : List Task
  fileBytes : Nat
  clock : ℚ
  refreshCount : Nat := 0
  chunkCount : Nat := 0
  requestCount : Nat := 0
  restartCount : Nat := 0
deriving DecidableEq, Repr

/-- db.commit(): persist the in-memory row and log the snapshot. -/
def commitSt (st : StreamState) : StreamState :=
  { st with dbRow := st.task, commits := st.commits ++ [st.task] }

/-- Python int(): truncation toward zero. -/
def pyint (q : ℚ) : Int := if q < 0 then -⌊-q⌋ else ⌊q⌋

/-- The throttle of tasks/downloads.py lines 356-360: after a chunk is
written, expected = (downloaded_bytes - existing_size) / (speed_limit *
1024) seconds; when the elapsed time since start_time is smaller, sleep
the difference.  Returns the clock after the sleep. -/
def throttleStep (speedLimit existing downloaded : Nat) (startTime clock : ℚ) : ℚ :=
  let expected : ℚ := ((downloaded : ℚ) - (existing : ℚ)) / ((speedLimit : ℚ) * 1024)
  let elapsed := clock - startTime
  if elapsed < expected then clock + (expected - elapsed) else clock

/-- speed_limit = download.speed_limit_kbps or settings.global_speed_limit_kbps
(line 338); Python or falls through on None and on 0. -/
def effectiveSpeedLimit (t : Task) (s : DownloadSettingsGlobal) : Nat :=
  match t.speedLimitKbps with
  | some k => if k = 0 then s.globalSpeedLimitKbps else k
  | none => s.globalSpeedLimitKbps

/-- The write-throttle-statistics part of one iteration of the chunk loop
(lines 351-373): append the chunk to the file and to downloaded_bytes,
throttle, and once per second persist speed, progress capped at 99.9 and
the remaining-time estimate.  Returns the state, the new sample_start and
the new bytes_sampled. -/
def chunkWrite (speedLimit existing : Nat) (startTime now : ℚ) (c : Nat)
    (st : StreamState) (sampleStart : ℚ) (bytesSampled : Nat) :
    StreamState × ℚ × Nat :=
  let st := { st with fileBytes := st.fileBytes + c,
                      task := { st.task with downloadedBytes := st.task.downloadedBytes + c } }
  let bytesSampled := bytesSampled + c
  let st :=
    if 0 < speedLimit then
      { st with clock := throttleStep speedLimit existing st.task.downloadedBytes startTime st.clock }
    else st
  let sampleElapsed := now - sampleStart
  if (1 : ℚ) ≤ sampleElapsed then
    let speed := ((bytesSampled : ℚ) / 1024) / sampleElapsed
    let task := { st.task with currentSpeedKbps := speed }
    let task :=
      match task.fileSize with
      | some fs =>
        if fs = 0 then task
        else
          let task := { task with
            progress := min (((task.downloadedBytes : ℚ) / (fs : ℚ)) * 100) (999 / 10) }
          if 0 < speed then
            let etr := pyint ((((fs : ℚ) - (task.downloadedBytes : ℚ)) / 1024) / speed)
            { task with estimatedTimeRemaining := some etr }
          else task
      | none => task
    (commitSt { st with task := task }, now, 0)
  else (st, sampleStart, bytesSampled)

/-- One full iteration of the chunk loop (lines 341-373): advance the
clock by the network read, refresh the row from the store every 5 seconds
and stop on PAUSED or CANCELLED, otherwise write and throttle.  inl is an
early interrupted return, inr carries (state, last_db_refresh,
sample_start, bytes_sampled) into the next iteration. -/
def chunkStep (env : NetEnv) (speedLimit existing : Nat) (startTime : ℚ) (c : Nat)
    (st : StreamState) (lastRefresh sampleStart : ℚ) (bytesSampled : Nat) :
    (StreamState × Bool) ⊕ (StreamState × ℚ × ℚ × Nat) :=
  let now := st.clock + env.readDelay st.chunkCount
  let st1 := { st with clock := now, chunkCount := st.chunkCount + 1 }
  if (5 : ℚ) ≤ now - lastRefresh then
    let status := env.statusAt st1.refreshCount
    let st2 := { st1 with task := { st1.dbRow with status := status },
                          refreshCount := st1.refreshCount + 1 }
    if status = .paused ∨ status = .cancelled then
      Sum.inl (st2, false)
    else
      let w := chunkWrite speedLimit existing startTime now c st2 sampleStart bytesSampled
      Sum.inr (w.1, now, w.2.1, w.2.2)
  else
    let w := chunkWrite speedLimit existing startTime now c st1 sampleStart bytesSampled
    Sum.inr (w.1, lastRefresh, w.2.1, w.2.2)

/-- The chunk loop: returns the final state and true on a complete body,
false when a refresh observed a pause or cancel. -/
def runChunks (env : NetEnv) (speedLimit existing : Nat) (startTime : ℚ) :
    List Nat → StreamState → ℚ → ℚ → Nat → StreamState × Bool
  | [], st, _, _, _ => (st, true)
  | c :: rest, st, lastRefresh, sampleStart, bytesSampled =>
    match chunkStep env speedLimit existing startTime c st lastRefresh sampleStart bytesSampled with
    | Sum.inl out => out
    | Sum.inr (st2, lr, ss, bs) => runChunks env speedLimit existing startTime rest st2 lr ss bs

/-- Outcome of a transfer attempt as seen by download_media_task:
True (success), False (interrupted), or a raised exception. -/
inductive StreamResult where
  | success
  | interrupted
  | failure (msg : String)
  | outOfFuel
deriving DecidableEq, Repr

/-- File open mode: wb truncates, ab appends. -/
inductive FileMode where
  | wb
  | ab
deriving DecidableEq, Repr

/-- The while True request loop of _perform_download_stream (lines
306-395): send the request with a Range header when existing_size > 0,
handle 416 with a HEAD probe (either already complete, or reset to zero
and loop), treat any other error status as a raised exception, detect an
ignored Range (200 while existing_size > 0) by resetting progress and
switching to overwrite mode, record the total size from content-length
or content-range, then stream the body. -/
def attemptLoop (env : NetEnv) (settings : DownloadSettingsGlobal) :
    Nat → Nat → StreamState → StreamState × StreamResult
  | 0, _, st => (st, .outOfFuel)
  | fuel + 1, existing, st =>
    match env.respond (if 0 < existing then some existing else none) with
    | none => ({ st with requestCount := st.requestCount + 1 }, .failure "network error")
    | some resp =>
      let st := { st with requestCount := st.requestCount + 1 }
      if 400 ≤ resp.statusCode then
        if resp.statusCode = 416 then
          let srvSize := env.headContentLength.getD 0
          if 0 < srvSize ∧ srvSize ≤ existing then
            let t2 := { st.task with fileSize := some srvSize, downloadedBytes := existing }
            ({ st with task := t2 }, .success)
          else
            attemptLoop env settings fuel 0
              { st with task := { st.task with downloadedBytes := 0 } }
        else (st, .failure ("HTTP " ++ toString resp.statusCode))
      else
        let restarted : Bool := resp.statusCode == 200 && 0 < existing
        let existing2 := if restarted then 0 else existing
        let st2 :=
          if restarted then
            { st with task := { st.task with downloadedBytes := 0 },
                      restartCount := st.restartCount + 1 }
          else st
        let mode : FileMode :=
          if restarted then .wb else if 0 < existing then .ab else .wb
        let st3 :=
          match resp.contentLength with
          | some len =>
            if resp.statusCode = 206 then
              match resp.contentRangeTotal with
              | some total => { st2 with task := { st2.task with fileSize := some total } }
              | none => st2
            else { st2 with task := { st2.task with fileSize := some len } }
          | none => st2
        let st4 := commitSt st3
        let st5 := if mode = .wb then { st4 with fileBytes := 0 } else st4
        let speedLimit := effectiveSpeedLimit st5.task settings
        let r := runChunks env speedLimit existing2 st5.clock resp.body st5 st5.clock st5.clock 0
        if r.2 then (r.1, .success) else (r.1, .interrupted)

/-- tasks/downloads.py _perform_download_stream, lines 292-395: take the
partial file size as the resume offset, persist it as downloaded_bytes,
then run the request loop.  The fuel bounds the number of 416 retries of
the while True loop. -/
def perform_download_stream (env : NetEnv) (settings : DownloadSettingsGlobal)
    (fuel : Nat) (st : StreamState) : StreamState × StreamResult :=
  let existing := st.fileBytes
  let st := commitSt { st with task := { st.task with downloadedBytes := existing } }
  attemptLoop env settings fuel existing st

/-- The fixed context of one worker invocation: settings and subscription
rows, the network environment, the resolved target path (none models the
path resolver raising), the celery request id, the coarse wall-clock
timestamp used for datetime.now() fields, and the fine clock origin. -/
structure WorkerCtx where
  env : NetEnv
  settings : DownloadSettingsGlobal
  subs : List Subscription
  resolvedPath : Option String
  dispatchId : String := "celery-task"
  fuel : Nat := 1000
  now : Nat := 0
  clock0 : ℚ := 0

/-- Observable outcome of one worker invocation: the store after the run,
the commit log, the scheduled re-dispatch (task id, countdown seconds)
when the retry branch re-armed the task, and the number of HTTP requests
issued. -/
structure WorkerOut where
  tasks : List Task
  commits : List Task
  redispatch : Option (Nat × Nat)
  requests : Nat
deriving DecidableEq, Repr

/-- Promotion of a task at worker start (lines 529-532): status
DOWNLOADING, started_at stamped, the celery request id stored as the
dispatch handle. -/
def promoteTask (t : Task) (now : Nat) (dispatchId : String) : Task :=
  { t with status := .downloading, startedAt := some now, taskId := some dispatchId }

/-- tasks/downloads.py download_media_task, lines 509-567: fetch the row
and return at once when it is missing, COMPLETED or CANCELLED; return
when the subscription is missing; resolve the path (a raised resolution
error lands in the retry branch); promote to DOWNLOADING and commit;
stream; on success commit COMPLETED with progress 100.0 and the save
path; on a raised transfer error reload the row and run the retry
branch; an interrupted stream changes nothing further. -/
def download_media_task (ctx : WorkerCtx) (tasks : List Task) (fileBytes0 : Nat)
    (downloadId : Nat) : WorkerOut :=
  match findTask tasks downloadId with
  | none => { tasks := tasks, commits := [], redispatch := none, requests := 0 }
  | some download =>
    if download.status = .completed ∨ download.status = .cancelled then
      { tasks := tasks, commits := [], redispatch := none, requests := 0 }
    else
      match ctx.subs.find? (fun s => s.id == download.subscriptionId) with
      | none => { tasks := tasks, commits := [], redispatch := none, requests := 0 }
      | some _ =>
        match ctx.resolvedPath with
        | none =>
          let r := retryOnFailure ctx.settings download "path resolution error" ctx.now
          { tasks := updateTask tasks r.1, commits := [r.1],
            redispatch := r.2.map (fun d => (downloadId, d)), requests := 0 }
        | some path =>
          let promoted := promoteTask download ctx.now ctx.dispatchId
          let st0 : StreamState :=
            { task := promoted, dbRow := promoted, commits := [promoted],
              fileBytes := fileBytes0, clock := ctx.clock0 }
          let r := perform_download_stream ctx.env ctx.settings ctx.fuel st0
          match r.2 with
          | .success =>
            let done :=
              { r.1.task with status := DownloadStatus.completed, completedAt := some ctx.now,
                              progress := 100, savePath := some path }
            { tasks := updateTask tasks done, commits := r.1.commits ++ [done],
              redispatch := none, requests := r.1.requestCount }
          | .interrupted =>
            { tasks := updateTask tasks r.1.dbRow, commits := r.1.commits,
              redispatch := none, requests := r.1.requestCount }
          | .failure msg =>
            let t2 := retryOnFailure ctx.settings r.1.dbRow msg ctx.now
            { tasks := updateTask tasks t2.1, commits := r.1.commits ++ [t2.1],
              redispatch := t2.2.map (fun d => (downloadId, d)), requests := r.1.requestCount }
          | .outOfFuel =>
            { tasks := updateTask tasks r.1.dbRow, commits := r.1.commits,
              redispatch := none, requests := r.1.requestCount }

/-! Concrete fixtures used by counterexamples and witnesses. -/

/-- A small task row fixture. -/
def mkTask (i : Nat) (st : DownloadStatus) (created : Nat) (prio : Int) : Task :=
  { id := i, subscriptionId := 1, mediaType := "movie", mediaId := toString i,
    status := st, createdAt := created, priority := prio }

/-- A server that always answers 200 with full content, ignoring Range. -/
def env200 (len : Nat) (body : List Nat) : NetEnv :=
  { respond := fun _ => some { statusCode := 200, contentLength := some len, body := body } }

/-- A worker context with no subscriptions and a dead network. -/
def ctxNoop : WorkerCtx :=
  { env := { respond := fun _ => none }, settings := {}, subs := [], resolvedPath := none }

/-- A worker context for a trivial empty-body transfer. -/
def ctxTrivial : WorkerCtx :=
  { env := env200 0 [], settings := {}, subs := [{ id := 1 }],
    resolvedPath := some "/output/file.mp4" }

/-- Initial stream state for a standalone run of the transfer loop on a
task with a partial file of fb bytes on disk. -/
def mkStream (t : Task) (fb : Nat) (c0 : ℚ) : StreamState :=
  { task := t, dbRow := t, commits := [], fileBytes := fb, clock := c0 }

/-- The throttle invariant at a speed cap: the bytes written since the
resume offset never exceed the elapsed time times the cap (in bytes per
second), and the persisted byte count never exceeds the in-memory one. -/
def throttleInv (sl ex : Nat) (stT : ℚ) (st : StreamState) : Prop :=
  ((st.task.downloadedBytes : ℚ) - (ex : ℚ)) ≤ (st.clock - stT) * ((sl : ℚ) * 1024) ∧
  st.dbRow.downloadedBytes ≤ st.task.downloadedBytes

/-- The progress invariant: the in-memory row, the persisted row and
every committed snapshot carry a progress strictly below 100. -/
def progressInv (st : StreamState) : Prop :=
  st.task.progress < 100 ∧ st.dbRow.progress < 100 ∧ ∀ x ∈ st.commits, x.progress < 100

/-- A DOWNLOADING task with a stored dispatch handle. -/
def exDLTask : Task := { mkTask 1 .downloading 0 0 with taskId := some "hnd" }

/-- An API state holding exDLTask and its partial file. -/
def exApiState : ApiState :=
  { tasks := [exDLTask], files := [("/downloads/m.mp4", 4096)] }

/-- A DOWNLOADING task whose worker invocation is still live. -/
def exLiveTask : Task :=
  { mkTask 5 .downloading 0 0 with
      taskId := some "live-worker", startedAt := some 100, downloadedBytes := 1234 }

instance {α β : Type} [DecidableEq α] [DecidableEq β] : DecidableEq (Except α β) := fun a b =>
  match a, b with
  | .ok x, .ok y => decidable_of_iff (x = y) (by constructor <;> (intro h; cases h <;> rfl))
  | .error x, .error y => decidable_of_iff (x = y) (by constructor <;> (intro h; cases h <;> rfl))
  | .ok _, .error _ => isFalse (by intro h; cases h)
  | .error _, .ok _ => isFalse (by intro h; cases h)

/-- The completion snapshot committed by the trivial worker context on a
fresh task. -/
def exDoneTask : Task :=
  { mkTask 1 .completed 0 0 with
      progress := 100, fileSize := some 0, startedAt := some 0, completedAt := some 0,
      taskId := some "celery-task", savePath := some "/output/file.mp4" }

/-- The row inserted by the C3 duplicate enqueue. -/
def exNewTask2 : Task :=
  { id := 2, subscriptionId := 1, mediaType := "movie", mediaId := "1",
    title := "T", url := "u", status := .pending, createdAt := 5 }

end XtreamDL

namespace XtreamDL

/-! ## Theorems -/

/-- C2: the claim says that cancelling a DOWNLOADING task removes both the
partial file on disk and the task record.  False: cancel_download keeps
the record (it merely marks it CANCELLED) and performs no filesystem
operation, as shown here on a concrete DOWNLOADING task with a partial
file on disk. -/
theorem C2_counterexample :
    (cancel_download exApiState 1).state.tasks = [{ exDLTask with status := .cancelled }] ∧
    (findTask (cancel_download exApiState 1).state.tasks 1).isSome = true ∧
    (cancel_download exApiState 1).state.files = [("/downloads/m.mp4", 4096)] ∧
    (cancel_download exApiState 1).terminated = some "hnd" := by
  decide

/-- C2 (amended): for a DOWNLOADING task, Cancel requests termination of
the in-flight worker invocation via the stored dispatch handle and marks
the record CANCELLED in place; the record is kept (the store keeps the
same number of rows) and the filesystem is untouched.  Only
non-DOWNLOADING tasks are deleted. -/
theorem C2_cancel_marks_cancelled (s : ApiState) (tid : Nat) (t : Task)
    (ht : findTask s.tasks tid = some t) (hst : t.status = .downloading) :
    cancel_download s tid =
      { state := { s with tasks := updateTask s.tasks { t with status := .cancelled } },
        terminated := t.taskId } ∧
    (cancel_download s tid).state.files = s.files ∧
    (cancel_download s tid).state.tasks.length = s.tasks.length := by
  have h1 : cancel_download s tid =
      { state := { s with tasks := updateTask s.tasks { t with status := .cancelled } },
        terminated := t.taskId } := by
    unfold cancel_download
    rw [ht]
    dsimp only
    rw [if_pos hst]
  refine ⟨h1, ?_, ?_⟩ <;> rw [h1] <;> simp [updateTask]

/-- Witness for C2_cancel_marks_cancelled at a concrete DOWNLOADING task. -/
theorem C2_cancel_marks_cancelled_witness :
    (cancel_download exApiState 1).state.files = [("/downloads/m.mp4", 4096)] :=
  (C2_cancel_marks_cancelled exApiState 1 exDLTask (by decide) (by decide)).2.1

/-- C3: the claim says enqueue returns the existing task for every
non-terminal status (including PAUSED) and creates a new task for every
terminal status (including COMPLETED).  False on both counts: with an
existing PAUSED task a duplicate row is created, and with an existing
COMPLETED task the old task is returned and nothing is created. -/
theorem C3_counterexample :
    queue_download [{ id := 1 }] [mkTask 1 .paused 0 0] 1 "movie" "1" "T" "u" 2 5 =
      .ok { tasks := [mkTask 1 .paused 0 0, exNewTask2],
            returnedId := 2, returnedStatus := .pending, created := true } ∧
    queue_download [{ id := 1 }] [mkTask 3 .completed 0 0] 1 "movie" "3" "T" "u" 9 5 =
      .ok { tasks := [mkTask 3 .completed 0 0], returnedId := 3,
            returnedStatus := .completed, created := false,
            message := some "Already in list" } := by
  decide

/-- C3 (amended): enqueue returns the first task matching (source, media
kind, media id) unchanged, creating nothing, exactly when its status is
PENDING, DOWNLOADING or COMPLETED; when the matching task is PAUSED,
FAILED or CANCELLED, or when no task matches, a new PENDING row is
appended. -/
theorem C3_enqueue_dedup (subs : List Subscription) (tasks : List Task)
    (subId : Nat) (mediaType mediaId title url : String) (newId now : Nat)
    (sub : Subscription) (hsub : subs.find? (fun s => s.id == subId) = some sub) :
    (∀ e, tasks.find? (fun t => t.subscriptionId == subId && t.mediaId == mediaId &&
        t.mediaType == mediaType) = some e →
      ((e.status = .pending ∨ e.status = .downloading ∨ e.status = .completed) →
        queue_download subs tasks subId mediaType mediaId title url newId now =
          .ok { tasks := tasks, returnedId := e.id, returnedStatus := e.status,
                created := false, message := some "Already in list" }) ∧
      ((e.status = .paused ∨ e.status = .failed ∨ e.status = .cancelled) →
        queue_download subs tasks subId mediaType mediaId title url newId now =
          .ok { tasks := tasks ++ [enqueueNewTask subId mediaType mediaId title url newId now],
                returnedId := newId, returnedStatus := .pending, created := true })) ∧
    (tasks.find? (fun t => t.subscriptionId == subId && t.mediaId == mediaId &&
        t.mediaType == mediaType) = none →
      queue_download subs tasks subId mediaType mediaId title url newId now =
        .ok { tasks := tasks ++ [enqueueNewTask subId mediaType mediaId title url newId now],
              returnedId := newId, returnedStatus := .pending, created := true }) := by
  constructor
  · intro e he
    constructor
    · intro hst
      unfold queue_download
      rw [hsub]
      dsimp only
      rw [he]
      dsimp only
      rw [if_pos hst]
    · intro hst
      have hne : ¬(e.status = .pending ∨ e.status = .downloading ∨ e.status = .completed) := by
        rcases hst with h | h | h <;> rw [h] <;> decide
      unfold queue_download
      rw [hsub]
      dsimp only
      rw [he]
      dsimp only
      rw [if_neg hne]
  · intro hnone
    unfold queue_download
    rw [hsub]
    dsimp only
    rw [hnone]

/-- Witness for C3_enqueue_dedup: an existing PENDING task is returned
unchanged. -/
theorem C3_enqueue_dedup_witness :
    queue_download [{ id := 1 }] [mkTask 1 .pending 0 0] 1 "movie" "1" "T" "u" 2 5 =
      .ok { tasks := [mkTask 1 .pending 0 0], returnedId := 1, returnedStatus := .pending,
            created := false, message := some "Already in list" } :=
  ((C3_enqueue_dedup [{ id := 1 }] [mkTask 1 .pending 0 0] 1 "movie" "1" "T" "u" 2 5
      { id := 1 } (by decide)).1 (mkTask 1 .pending 0 0) (by decide)).1 (Or.inl rfl)

/-- C4: the claim says the maintenance sweep resets exactly the
DOWNLOADING tasks with no live dispatch and leaves live ones unchanged.
The code has no liveness notion at all: recovery_sweep rewrites every
DOWNLOADING row, so a task whose worker is alive (here: a liveness oracle
marking every dispatch live) is still reset to PENDING with the recovery
error message. -/
theorem C4_recovery_ignores_liveness :
    (fun _ : Nat => true) exLiveTask.id = true ∧
    recovery_sweep [exLiveTask] =
      [{ exLiveTask with
          status := .pending, errorMessage := some "Recovery: interrupted by restart" }] ∧
    recovery_sweep [exLiveTask] ≠ [exLiveTask] ∧
    recovery_sweep [mkTask 6 .pending 0 0] = [mkTask 6 .pending 0 0] := by
  decide

/-- The re-arm case of the retry branch: while the incremented
retry_count is still below the maximum, the task goes back to PENDING
with the exponential delay on a fixed 60 second base. -/
theorem retryOnFailure_rearm (s : DownloadSettingsGlobal) (err : String) (ν m : Nat)
    (u : Task) (hm : effectiveMaxRetries s = m) (h : u.retryCount + 1 < m) :
    retryOnFailure s u err ν =
      ({ u with retryCount := u.retryCount + 1, status := .pending,
                nextRetryAt := some (ν + 60 * 2 ^ u.retryCount),
                errorMessage := some ("Retry " ++ toString (u.retryCount + 1) ++ "/" ++
                  toString m ++ ": " ++ err) },
       some (60 * 2 ^ u.retryCount)) := by
  unfold retryOnFailure
  simp only [hm, Nat.add_sub_cancel]
  rw [if_pos h]

/-- The terminal case of the retry branch: when the incremented
retry_count reaches the maximum, the task is marked FAILED and no
re-dispatch is scheduled. -/
theorem retryOnFailure_terminal (s : DownloadSettingsGlobal) (err : String) (ν m : Nat)
    (u : Task) (hm : effectiveMaxRetries s = m) (h : m ≤ u.retryCount + 1) :
    retryOnFailure s u err ν =
      ({ u with retryCount := u.retryCount + 1, status := .failed,
                errorMessage := some err }, none) := by
  unfold retryOnFailure
  simp only [hm, Nat.add_sub_cancel]
  rw [if_neg (by omega)]

/-- Characterization of the always-failing trace: delays, terminal state. -/
theorem alwaysFailTrace_spec (s : DownloadSettingsGlobal) (err : String) (m : Nat)
    (hm : effectiveMaxRetries s = m) :
    ∀ fuel (u : Task) (ν : Nat), u.retryCount < m → m - u.retryCount ≤ fuel →
      (alwaysFailTrace s err fuel u ν).2.map Prod.fst =
        (List.range (m - 1 - u.retryCount)).map (fun k => 60 * 2 ^ (u.retryCount + k)) ∧
      (alwaysFailTrace s err fuel u ν).1.status = .failed ∧
      (alwaysFailTrace s err fuel u ν).1.retryCount = m ∧
      (alwaysFailTrace s err fuel u ν).1.errorMessage = some err := by
  intro fuel
  induction fuel with
  | zero => intro u ν hlt hfuel; omega
  | succ fuel ih =>
    intro u ν hlt hfuel
    by_cases hcase : u.retryCount + 1 < m
    · have hstep := retryOnFailure_rearm s err ν m u hm hcase
      have ihr := ih
        { u with retryCount := u.retryCount + 1, status := .pending,
                 nextRetryAt := some (ν + 60 * 2 ^ u.retryCount),
                 errorMessage := some ("Retry " ++ toString (u.retryCount + 1) ++ "/" ++
                   toString m ++ ": " ++ err) }
        (ν + 60 * 2 ^ u.retryCount)
        (by show u.retryCount + 1 < m; omega)
        (by show m - (u.retryCount + 1) ≤ fuel; omega)
      unfold alwaysFailTrace
      rw [hstep]
      dsimp only
      refine ⟨?_, ihr.2.1, ihr.2.2.1, ihr.2.2.2⟩
      rw [List.map_cons, ihr.1]
      have hn : m - 1 - u.retryCount = (m - 1 - (u.retryCount + 1)) + 1 := by omega
      rw [hn, List.range_succ_eq_map, List.map_cons, List.map_map]
      show _ :: _ = _ :: _
      refine congrArg₂ List.cons rfl ?_
      apply List.map_congr_left
      intro k _
      show 60 * 2 ^ ((u.retryCount + 1) + k) = 60 * 2 ^ (u.retryCount + (k + 1))
      have hk : (u.retryCount + 1) + k = u.retryCount + (k + 1) := by omega
      rw [hk]
    · have hstep := retryOnFailure_terminal s err ν m u hm (by omega)
      unfold alwaysFailTrace
      rw [hstep]
      dsimp only
      have hz : m - 1 - u.retryCount = 0 := by omega
      exact ⟨by rw [hz]; rfl, rfl, by show u.retryCount + 1 = m; omega, rfl⟩

/-- Every re-armed snapshot in the always-failing trace is PENDING, its
re-dispatch delay is 60 * 2 ^ (retry_count - 1), and its error message is
prefixed with the attempt count. -/
theorem alwaysFailTrace_snapshots (s : DownloadSettingsGlobal) (err : String) (m : Nat)
    (hm : effectiveMaxRetries s = m) :
    ∀ fuel (u : Task) (ν : Nat) p, p ∈ (alwaysFailTrace s err fuel u ν).2 →
      p.2.status = .pending ∧ p.1 = 60 * 2 ^ (p.2.retryCount - 1) ∧
      p.2.errorMessage = some ("Retry " ++ toString p.2.retryCount ++ "/" ++
        toString m ++ ": " ++ err) := by
  intro fuel
  induction fuel with
  | zero => intro u ν p hp; simp [alwaysFailTrace] at hp
  | succ fuel ih =>
    intro u ν p hp
    by_cases hcase : u.retryCount + 1 < m
    · rw [alwaysFailTrace, retryOnFailure_rearm s err ν m u hm hcase] at hp
      dsimp only at hp
      rcases List.mem_cons.mp hp with h | h
      · subst h
        refine ⟨rfl, ?_, rfl⟩
        simp
      · exact ih _ _ p h
    · rw [alwaysFailTrace, retryOnFailure_terminal s err ν m u hm (by omega)] at hp
      dsimp only at hp
      simp at hp

/-- A store without PENDING rows yields nothing from gatherPending. -/
theorem gatherPending_of_no_pending (tasks : List Task)
    (h : ∀ t ∈ tasks, t.status ≠ .pending) :
    ∀ subs : List Subscription, gatherPending subs tasks = [] := by
  intro subs
  induction subs with
  | nil => rfl
  | cons sub rest ih =>
    unfold gatherPending
    have hf : tasks.filter (fun t =>
        t.subscriptionId == sub.id && t.status == DownloadStatus.pending) = [] := by
      rw [List.filter_eq_nil]
      intro t ht
      have := h t ht
      simp only [Bool.and_eq_true, beq_iff_eq]
      rintro ⟨-, h2⟩
      exact this h2
    rw [hf]
    split <;> simp [ih]

/-- A store without PENDING rows is left alone by the parallel branch. -/
theorem parallelForSubs_of_no_pending (now : Nat) :
    ∀ (subs : List Subscription) (tasks : List Task),
      (∀ t ∈ tasks, t.status ≠ .pending) →
      parallelForSubs now subs tasks = (tasks, []) := by
  intro subs
  induction subs with
  | nil => intro tasks _; rfl
  | cons sub rest ih =>
    intro tasks h
    unfold parallelForSubs
    have hf : tasks.filter (fun t =>
        t.subscriptionId == sub.id && t.status == DownloadStatus.pending) = [] := by
      rw [List.filter_eq_nil]
      intro t ht
      have := h t ht
      simp only [Bool.and_eq_true, beq_iff_eq]
      rintro ⟨-, h2⟩
      exact this h2
    rw [hf]
    dsimp only
    have key : ((parallelForSubs now rest tasks).1,
        [] ++ (parallelForSubs now rest tasks).2) = (tasks, ([] : List Nat)) := by
      rw [ih tasks h]
      rfl
    split
    · rw [show orderByPriorityCreated ([] : List Task) = [] from rfl, List.take_nil]
      exact key
    · exact key

/-- The queue processor never dispatches from a store without PENDING
rows, in either scheduling mode. -/
theorem process_queue_of_no_pending (s : DownloadSettingsGlobal)
    (subs : List Subscription) (tasks : List Task) (now : Nat)
    (h : ∀ t ∈ tasks, t.status ≠ .pending) :
    (process_download_queue s subs tasks now).dispatched = [] := by
  unfold process_download_queue
  split
  · rw [gatherPending_of_no_pending tasks h subs]
    dsimp only
    split <;> rfl
  · dsimp only
    rw [parallelForSubs_of_no_pending now (subs.filter fun s => s.isActive) tasks h]

/-- C1: the claim predicts, for max_retries m = 3 and a configured base
delay b, delays b*1, b*2, b*4 and m re-dispatches.  False twice over on
the code: with the default settings (m = 3, base 60) an always-failing
task observes delays [60, 120] (two re-dispatches, three attempts), not
[60, 120, 240]; and with a configured base of 30 seconds the first delay
is still 60, because the 60 second base is a hardcoded literal. -/
theorem C1_counterexample :
    ((alwaysFailTrace {} "boom" 10 (mkTask 1 .downloading 0 0) 0).2.map Prod.fst
        = [60, 120] ∧
      (alwaysFailTrace {} "boom" 10 (mkTask 1 .downloading 0 0) 0).1.status = .failed ∧
      (alwaysFailTrace {} "boom" 10 (mkTask 1 .downloading 0 0) 0).2.map Prod.fst
        ≠ [60, 120, 240]) ∧
    ((alwaysFailTrace { retryDelayBaseSeconds := 30 } "boom" 10
        (mkTask 1 .downloading 0 0) 0).2.map Prod.fst = [60, 120] ∧
      (alwaysFailTrace { retryDelayBaseSeconds := 30 } "boom" 10
        (mkTask 1 .downloading 0 0) 0).2.map Prod.fst ≠ [30, 60]) := by
  decide

/-- C1 (amended): on each transfer failure retry_count is incremented;
while it stays below m = effectiveMaxRetries, the task is re-armed as
PENDING with next_retry_at = now + delay and an error message prefixed
with the attempt count, and a re-dispatch is scheduled for exactly delay
= 60 * 2 ^ (retry_count - 1) seconds (the base is the literal 60, the
configured base delay is ignored); an always-failing task with
retry_count 0 therefore observes the strictly increasing delays 60 * 2^k
for k < m - 1 (that is, m - 1 re-dispatches and m attempts in total),
every re-armed snapshot is PENDING, and the task then reaches FAILED with
retry_count m and is never dispatched again by the queue processor. -/
theorem C1_retry_backoff (s : DownloadSettingsGlobal) (m : Nat)
    (hm : effectiveMaxRetries s = m) (t : Task) (h0 : t.retryCount = 0)
    (err : String) (fuel : Nat) (hf : m ≤ fuel) (ν : Nat) :
    (∀ (u : Task) (now2 : Nat), u.retryCount + 1 < m →
      retryOnFailure s u err now2 =
        ({ u with retryCount := u.retryCount + 1, status := .pending,
                  nextRetryAt := some (now2 + 60 * 2 ^ u.retryCount),
                  errorMessage := some ("Retry " ++ toString (u.retryCount + 1) ++ "/" ++
                    toString m ++ ": " ++ err) },
         some (60 * 2 ^ u.retryCount))) ∧
    (∀ (u : Task) (now2 : Nat), m ≤ u.retryCount + 1 →
      retryOnFailure s u err now2 =
        ({ u with retryCount := u.retryCount + 1, status := .failed,
                  errorMessage := some err }, none)) ∧
    (alwaysFailTrace s err fuel t ν).2.map Prod.fst =
      (List.range (m - 1)).map (fun k => 60 * 2 ^ k) ∧
    List.Pairwise (· < ·) ((alwaysFailTrace s err fuel t ν).2.map Prod.fst) ∧
    (∀ p ∈ (alwaysFailTrace s err fuel t ν).2, p.2.status = DownloadStatus.pending ∧
      p.2.errorMessage = some ("Retry " ++ toString p.2.retryCount ++ "/" ++
        toString m ++ ": " ++ err)) ∧
    (alwaysFailTrace s err fuel t ν).1.status = .failed ∧
    (alwaysFailTrace s err fuel t ν).1.retryCount = m ∧
    (∀ (s2 : DownloadSettingsGlobal) (subs : List Subscription) (now2 : Nat),
      (process_download_queue s2 subs [(alwaysFailTrace s err fuel t ν).1] now2).dispatched
        = []) := by
  have hm1 : 1 ≤ m := by
    rw [← hm]; unfold effectiveMaxRetries; split <;> omega
  have hmain := alwaysFailTrace_spec s err m hm fuel t ν (by omega) (by omega)
  have hdelays : (alwaysFailTrace s err fuel t ν).2.map Prod.fst =
      (List.range (m - 1)).map (fun k => 60 * 2 ^ k) := by
    rw [hmain.1, h0]
    simp
  refine ⟨fun u now2 h => retryOnFailure_rearm s err now2 m u hm h,
          fun u now2 h => retryOnFailure_terminal s err now2 m u hm h,
          hdelays, ?_, ?_, hmain.2.1, hmain.2.2.1, ?_⟩
  · rw [hdelays]
    refine List.Pairwise.map _ ?_ (List.pairwise_lt_range (m - 1))
    intro a b hab
    have := Nat.pow_lt_pow_right (by norm_num : 1 < 2) hab
    omega
  · intro p hp
    have := alwaysFailTrace_snapshots s err m hm fuel t ν p hp
    exact ⟨this.1, this.2.2⟩
  · intro s2 subs now2
    apply process_queue_of_no_pending
    intro x hx
    have hxe : x = (alwaysFailTrace s err fuel t ν).1 := by simpa using hx
    rw [hxe, hmain.2.1]
    decide

/-- Witness for C1_retry_backoff at the default settings: three attempts,
delays 60 and 120, terminal FAILED. -/
theorem C1_retry_backoff_witness :
    (alwaysFailTrace ({} : DownloadSettingsGlobal) "boom" 5
        (mkTask 1 .downloading 0 0) 0).2.map Prod.fst =
      (List.range 2).map (fun k => 60 * 2 ^ k) ∧
    (alwaysFailTrace ({} : DownloadSettingsGlobal) "boom" 5
        (mkTask 1 .downloading 0 0) 0).1.status = .failed :=
  ⟨(C1_retry_backoff {} 3 rfl (mkTask 1 .downloading 0 0) rfl "boom" 5
      (by norm_num) 0).2.2.1,
   (C1_retry_backoff {} 3 rfl (mkTask 1 .downloading 0 0) rfl "boom" 5
      (by norm_num) 0).2.2.2.2.2.1⟩

/-- C5: in sequential mode the claim (and the spec twice over, matching
the parallel branch) requires priority ties to be broken FIFO, oldest
creation first.  The code sorts with key (priority, created_at) and
reverse=True, which also reverses the creation-time component: with two
equal-priority PENDING tasks and no task downloading, the NEWER one is
promoted and dispatched. -/
theorem C5_sequential_tie_newest_first :
    (mkTask 1 .pending 100 0).priority = (mkTask 2 .pending 200 0).priority ∧
    (mkTask 1 .pending 100 0).createdAt < (mkTask 2 .pending 200 0).createdAt ∧
    (process_download_queue { downloadMode := "sequential" } [{ id := 1 }]
        [mkTask 1 .pending 100 0, mkTask 2 .pending 200 0] 1000).dispatched = [2] ∧
    (findTask (process_download_queue { downloadMode := "sequential" } [{ id := 1 }]
        [mkTask 1 .pending 100 0, mkTask 2 .pending 200 0] 1000).tasks 2).map Task.status =
      some .downloading ∧
    (findTask (process_download_queue { downloadMode := "sequential" } [{ id := 1 }]
        [mkTask 1 .pending 100 0, mkTask 2 .pending 200 0] 1000).tasks 1).map Task.status =
      some .pending := by
  decide

/-- C8: the quiet-hours membership helper exists (and correctly handles a
window spanning midnight), the settings default to an enabled 00:00-08:00
window with pause_during_quiet_hours set, yet no scheduling or retry path
consults it: at 03:00, inside the window, the queue processor still
promotes and dispatches a PENDING task, and the retry supervisor still
schedules a 60 second re-dispatch instead of deferring to the window
end. -/
theorem C8_quiet_hours_dead_code :
    ({ downloadMode := "sequential" } : DownloadSettingsGlobal).quietHoursEnabled = true ∧
    ({ downloadMode := "sequential" } : DownloadSettingsGlobal).pauseDuringQuietHours = true ∧
    is_quiet_hours { downloadMode := "sequential" } 180 = true ∧
    is_quiet_hours { quietHoursStart := "23:00", quietHoursEnd := "02:00" } 30 = true ∧
    (process_download_queue { downloadMode := "sequential" } [{ id := 1 }]
        [mkTask 1 .pending 0 0] 0).dispatched = [1] ∧
    (retryOnFailure { downloadMode := "sequential" } (mkTask 2 .downloading 0 0) "err" 0).2 =
      some 60 := by
  decide

/-- Frame facts about one write step: the file grows by the chunk, the
instrumentation counters are untouched, and the commit log only grows. -/
theorem chunkWrite_frame (sl ex : Nat) (stT now : ℚ) (c : Nat) (st : StreamState)
    (ss : ℚ) (bs : Nat) :
    (chunkWrite sl ex stT now c st ss bs).1.fileBytes = st.fileBytes + c ∧
    (chunkWrite sl ex stT now c st ss bs).1.requestCount = st.requestCount ∧
    (chunkWrite sl ex stT now c st ss bs).1.restartCount = st.restartCount ∧
    (chunkWrite sl ex stT now c st ss bs).1.refreshCount = st.refreshCount ∧
    ∃ l, (chunkWrite sl ex stT now c st ss bs).1.commits = st.commits ++ l := by
  unfold chunkWrite commitSt
  dsimp only
  repeat' split
  all_goals
    first
      | exact ⟨rfl, rfl, rfl, rfl, _, rfl⟩
      | exact ⟨rfl, rfl, rfl, rfl, [], (List.append_nil _).symm⟩

/-- When the status oracle never answers PAUSED or CANCELLED, a chunk
step always continues, growing the file by the chunk size. -/
theorem chunkStep_no_interrupt (env : NetEnv)
    (hstat : ∀ n, env.statusAt n ≠ .paused ∧ env.statusAt n ≠ .cancelled)
    (sl ex : Nat) (stT : ℚ) (c : Nat) (st : StreamState) (lr ss : ℚ) (bs : Nat) :
    ∃ st2 lr2 ss2 bs2, chunkStep env sl ex stT c st lr ss bs = Sum.inr (st2, lr2, ss2, bs2) ∧
      st2.fileBytes = st.fileBytes + c ∧
      st2.requestCount = st.requestCount ∧
      st2.restartCount = st.restartCount ∧
      ∃ l, st2.commits = st.commits ++ l := by
  unfold chunkStep
  dsimp only
  split
  · split
    · rename_i hpc
      exact absurd hpc (by
        have := hstat st.refreshCount
        rintro (h | h)
        · exact this.1 h
        · exact this.2 h)
    · exact ⟨_, _, _, _, rfl, (chunkWrite_frame _ _ _ _ _ _ _ _).1,
        (chunkWrite_frame _ _ _ _ _ _ _ _).2.1, (chunkWrite_frame _ _ _ _ _ _ _ _).2.2.1,
        (chunkWrite_frame _ _ _ _ _ _ _ _).2.2.2.2⟩
  · exact ⟨_, _, _, _, rfl, (chunkWrite_frame _ _ _ _ _ _ _ _).1,
      (chunkWrite_frame _ _ _ _ _ _ _ _).2.1, (chunkWrite_frame _ _ _ _ _ _ _ _).2.2.1,
      (chunkWrite_frame _ _ _ _ _ _ _ _).2.2.2.2⟩

/-- When the status oracle never interrupts, the chunk loop consumes the
whole body: it reports success, the file ends with the initial bytes plus
the whole body, the request and restart counters are untouched and the
commit log only grows. -/
theorem runChunks_no_interrupt (env : NetEnv)
    (hstat : ∀ n, env.statusAt n ≠ .paused ∧ env.statusAt n ≠ .cancelled)
    (sl ex : Nat) (stT : ℚ) :
    ∀ (chunks : List Nat) (st : StreamState) (lr ss : ℚ) (bs : Nat),
      (runChunks env sl ex stT chunks st lr ss bs).2 = true ∧
      (runChunks env sl ex stT chunks st lr ss bs).1.fileBytes = st.fileBytes + chunks.sum ∧
      (runChunks env sl ex stT chunks st lr ss bs).1.requestCount = st.requestCount ∧
      (runChunks env sl ex stT chunks st lr ss bs).1.restartCount = st.restartCount ∧
      ∃ l, (runChunks env sl ex stT chunks st lr ss bs).1.commits = st.commits ++ l := by
  intro chunks
  induction chunks with
  | nil =>
    intro st lr ss bs
    exact ⟨rfl, by simp [runChunks], rfl, rfl, [], by simp [runChunks]⟩
  | cons c rest ih =>
    intro st lr ss bs
    obtain ⟨st2, lr2, ss2, bs2, heq, hfb, hreq, hres, l1, hcom⟩ :=
      chunkStep_no_interrupt env hstat sl ex stT c st lr ss bs
    unfold runChunks
    rw [heq]
    obtain ⟨h1, h2, h3, h4, l2, h5⟩ := ih st2 lr2 ss2 bs2
    refine ⟨h1, ?_, h3.trans hreq, h4.trans hres, l1 ++ l2, ?_⟩
    · rw [h2, hfb, List.sum_cons]
      omega
    · rw [h5, hcom, List.append_assoc]

/-- Properties preserved by every chunk step are preserved by the whole
chunk loop, whether it finishes or is interrupted. -/
theorem runChunks_preserve (env : NetEnv) (sl ex : Nat) (stT : ℚ)
    (P : StreamState → Prop)
    (hinl : ∀ c st lr ss bs out, chunkStep env sl ex stT c st lr ss bs = Sum.inl out →
      P st → P out.1)
    (hinr : ∀ c st lr ss bs st2 lr2 ss2 bs2,
      chunkStep env sl ex stT c st lr ss bs = Sum.inr (st2, lr2, ss2, bs2) → P st → P st2) :
    ∀ (chunks : List Nat) (st : StreamState) (lr ss : ℚ) (bs : Nat),
      P st → P (runChunks env sl ex stT chunks st lr ss bs).1 := by
  intro chunks
  induction chunks with
  | nil => intro st lr ss bs hp; exact hp
  | cons c rest ih =>
    intro st lr ss bs hp
    unfold runChunks
    rcases hcs : chunkStep env sl ex stT c st lr ss bs with out | ⟨st2, lr2, ss2, bs2⟩
    · exact hinl c st lr ss bs out hcs hp
    · exact ih st2 lr2 ss2 bs2 (hinr c st lr ss bs st2 lr2 ss2 bs2 hcs hp)

/-- Reduction of one request round when the server ignores the Range
header: a 200 full-content answer to a range request resets the resume
offset and downloaded_bytes to zero, counts one restart, records the
total from content-length, commits, truncates the file (overwrite mode)
and streams the body in the same round — no further request is made. -/
theorem attemptLoop_ignored_range (env : NetEnv) (s : DownloadSettingsGlobal)
    (f k L : Nat) (B : List Nat) (st : StreamState)
    (hresp : env.respond (some k) =
      some { statusCode := 200, contentLength := some L, contentRangeTotal := none, body := B })
    (hk : 0 < k) :
    attemptLoop env s (f + 1) k st =
      (let u : Task := { st.task with downloadedBytes := 0, fileSize := some L }
       let stPre : StreamState :=
         { st with task := u, dbRow := u, commits := st.commits ++ [u], fileBytes := 0,
                   requestCount := st.requestCount + 1, restartCount := st.restartCount + 1 }
       let r := runChunks env (effectiveSpeedLimit u s) 0 stPre.clock B stPre
                  stPre.clock stPre.clock 0
       if r.2 then (r.1, StreamResult.success) else (r.1, StreamResult.interrupted)) := by
  unfold attemptLoop
  rw [if_pos hk, hresp]
  dsimp only
  rw [if_neg (by omega : ¬(400 ≤ 200))]
  have hb : (200 == 200 && decide (0 < k)) = true := by simp [hk]
  simp only [if_pos hb]
  rw [if_neg (by omega : ¬(200 = 206))]
  rfl

/-- The chunk loop never touches the restart counter. -/
theorem runChunks_restart_frame (env : NetEnv) (sl ex : Nat) (stT : ℚ)
    (chunks : List Nat) (st : StreamState) (lr ss : ℚ) (bs : Nat) :
    (runChunks env sl ex stT chunks st lr ss bs).1.restartCount = st.restartCount := by
  refine runChunks_preserve env sl ex stT (fun x => x.restartCount = st.restartCount)
    ?_ ?_ chunks st lr ss bs rfl
  · intro c st1 lr1 ss1 bs1 out hcs hp
    unfold chunkStep at hcs
    dsimp only at hcs
    split at hcs
    · split at hcs
      · cases hcs
        exact hp
      · cases hcs
    · cases hcs
  · intro c st1 lr1 ss1 bs1 st2 lr2 ss2 bs2 hcs hp
    unfold chunkStep at hcs
    dsimp only at hcs
    split at hcs
    · split at hcs
      · cases hcs
      · cases hcs
        exact (chunkWrite_frame _ _ _ _ _ _ _ _).2.2.1.trans hp
    · cases hcs
      exact (chunkWrite_frame _ _ _ _ _ _ _ _).2.2.1.trans hp

/-- Once the resume offset is gone, no later round of the request loop
can restart again: the restart counter is stable on every recursion that
re-enters with existing_size = 0. -/
theorem attemptLoop_restart_le (env : NetEnv) (s : DownloadSettingsGlobal) :
    ∀ (fuel ex : Nat) (st : StreamState),
      (attemptLoop env s fuel ex st).1.restartCount ≤ st.restartCount + 1 := by
  intro fuel
  induction fuel with
  | zero => intro ex st; exact Nat.le_succ _
  | succ fuel ih =>
    intro ex st
    unfold attemptLoop
    rcases henv : env.respond (if 0 < ex then some ex else none) with _ | resp
    · exact Nat.le_succ _
    · dsimp only
      split
      · split
        · split
          · exact Nat.le_succ _
          · exact ih 0 _
        · exact Nat.le_succ _
      · repeat' split
        all_goals try rw [runChunks_restart_frame]
        all_goals simp only [commitSt]
        all_goals omega

/-- Full behaviour of one round against a Range-ignoring server with a
non-interrupting status oracle: success in that same round, exactly one
extra request, exactly one restart, the file rewritten from scratch to
the body size, and the reset (downloaded_bytes zero, total recorded)
committed right after the restart. -/
theorem attemptLoop_ignored_spec (env : NetEnv) (s : DownloadSettingsGlobal)
    (f k L : Nat) (B : List Nat) (st : StreamState)
    (hresp : env.respond (some k) =
      some { statusCode := 200, contentLength := some L, contentRangeTotal := none, body := B })
    (hstat : ∀ n, env.statusAt n ≠ .paused ∧ env.statusAt n ≠ .cancelled)
    (hk : 0 < k) :
    (attemptLoop env s (f + 1) k st).2 = .success ∧
    (attemptLoop env s (f + 1) k st).1.requestCount = st.requestCount + 1 ∧
    (attemptLoop env s (f + 1) k st).1.restartCount = st.restartCount + 1 ∧
    (attemptLoop env s (f + 1) k st).1.fileBytes = B.sum ∧
    ∃ l, (attemptLoop env s (f + 1) k st).1.commits =
      st.commits ++ [{ st.task with downloadedBytes := 0, fileSize := some L }] ++ l := by
  rw [attemptLoop_ignored_range env s f k L B st hresp hk]
  dsimp only
  obtain ⟨hsuc, hfb, hreq, hres, l, hcom⟩ := runChunks_no_interrupt env hstat
    (effectiveSpeedLimit { st.task with downloadedBytes := 0, fileSize := some L } s) 0
    ({ st with task := { st.task with downloadedBytes := 0, fileSize := some L },
               dbRow := { st.task with downloadedBytes := 0, fileSize := some L },
               commits := st.commits ++ [{ st.task with downloadedBytes := 0, fileSize := some L }],
               fileBytes := 0, requestCount := st.requestCount + 1,
               restartCount := st.restartCount + 1 } : StreamState).clock B
    { st with task := { st.task with downloadedBytes := 0, fileSize := some L },
              dbRow := { st.task with downloadedBytes := 0, fileSize := some L },
              commits := st.commits ++ [{ st.task with downloadedBytes := 0, fileSize := some L }],
              fileBytes := 0, requestCount := st.requestCount + 1,
              restartCount := st.restartCount + 1 }
    ({ st with task := { st.task with downloadedBytes := 0, fileSize := some L },
               dbRow := { st.task with downloadedBytes := 0, fileSize := some L },
               commits := st.commits ++ [{ st.task with downloadedBytes := 0, fileSize := some L }],
               fileBytes := 0, requestCount := st.requestCount + 1,
               restartCount := st.restartCount + 1 } : StreamState).clock
    ({ st with task := { st.task with downloadedBytes := 0, fileSize := some L },
               dbRow := { st.task with downloadedBytes := 0, fileSize := some L },
               commits := st.commits ++ [{ st.task with downloadedBytes := 0, fileSize := some L }],
               fileBytes := 0, requestCount := st.requestCount + 1,
               restartCount := st.restartCount + 1 } : StreamState).clock 0
  rw [if_pos hsuc]
  exact ⟨rfl, hreq, hres, hfb.trans (Nat.zero_add B.sum), l, hcom⟩

/-- C6: against a server that always answers a range request with a full
200 response, a transfer attempt starting from a partial file of k > 0
bytes discards the resume offset, resets downloaded_bytes to 0 (the reset
is the very next committed snapshot), rewrites the file in overwrite mode
so that it ends with exactly the body bytes, completes successfully with
a single request (no loop), counts exactly one restart-from-zero, and in
general no attempt whatsoever can restart more than once. -/
theorem C6_range_ignored_fallback (env : NetEnv) (settings : DownloadSettingsGlobal)
    (t : Task) (k L : Nat) (B : List Nat) (c0 : ℚ) (fuel : Nat)
    (hsrv : ∀ r, env.respond r =
      some { statusCode := 200, contentLength := some L, contentRangeTotal := none, body := B })
    (hstat : ∀ n, env.statusAt n ≠ .paused ∧ env.statusAt n ≠ .cancelled)
    (hk : 0 < k) (hfuel : 1 ≤ fuel) :
    (perform_download_stream env settings fuel (mkStream t k c0)).2 = .success ∧
    (perform_download_stream env settings fuel (mkStream t k c0)).1.requestCount = 1 ∧
    (perform_download_stream env settings fuel (mkStream t k c0)).1.restartCount = 1 ∧
    (perform_download_stream env settings fuel (mkStream t k c0)).1.fileBytes = B.sum ∧
    (perform_download_stream env settings fuel (mkStream t k c0)).1.commits.take 2 =
      [{ t with downloadedBytes := k }, { t with downloadedBytes := 0, fileSize := some L }] ∧
    (∀ (env2 : NetEnv) (s2 : DownloadSettingsGlobal) (fuel2 : Nat) (st2 : StreamState),
      st2.restartCount = 0 →
      (perform_download_stream env2 s2 fuel2 st2).1.restartCount ≤ 1) := by
  obtain ⟨f, rfl⟩ : ∃ f, fuel = f + 1 := ⟨fuel - 1, by omega⟩
  have hspec := attemptLoop_ignored_spec env settings f k L B
    { task := { t with downloadedBytes := k }, dbRow := { t with downloadedBytes := k },
      commits := [{ t with downloadedBytes := k }], fileBytes := k, clock := c0 }
    (hsrv (some k)) hstat hk
  have h1 : (perform_download_stream env settings (f + 1) (mkStream t k c0)).2 =
      StreamResult.success := hspec.1
  have h2 : (perform_download_stream env settings (f + 1) (mkStream t k c0)).1.requestCount =
      0 + 1 := hspec.2.1
  have h3 : (perform_download_stream env settings (f + 1) (mkStream t k c0)).1.restartCount =
      0 + 1 := hspec.2.2.1
  have h4 : (perform_download_stream env settings (f + 1) (mkStream t k c0)).1.fileBytes =
      B.sum := hspec.2.2.2.1
  obtain ⟨l, h5⟩ := hspec.2.2.2.2
  refine ⟨h1, by omega, by omega, h4, ?_, ?_⟩
  · show (attemptLoop env settings (f + 1) k
      { task := { t with downloadedBytes := k }, dbRow := { t with downloadedBytes := k },
        commits := [{ t with downloadedBytes := k }], fileBytes := k,
        clock := c0 }).1.commits.take 2 = _
    rw [h5]
    rfl
  · intro env2 s2 fuel2 st2 h0
    have h6 : (perform_download_stream env2 s2 fuel2 st2).1.restartCount ≤
        (commitSt { st2 with task :=
          { st2.task with downloadedBytes := st2.fileBytes } }).restartCount + 1 :=
      attemptLoop_restart_le env2 s2 fuel2 st2.fileBytes _
    have h7 : (commitSt { st2 with task :=
        { st2.task with downloadedBytes := st2.fileBytes } }).restartCount =
        st2.restartCount := rfl
    omega

/-- Witness for C6_range_ignored_fallback: a 32 byte partial file, a
server that always sends the full 128 byte body in two chunks. -/
theorem C6_range_ignored_fallback_witness :
    (perform_download_stream (env200 128 [64, 64]) {} 3
        (mkStream (mkTask 1 .pending 0 0) 32 0)).2 = .success ∧
    (perform_download_stream (env200 128 [64, 64]) {} 3
        (mkStream (mkTask 1 .pending 0 0) 32 0)).1.requestCount = 1 ∧
    (perform_download_stream (env200 128 [64, 64]) {} 3
        (mkStream (mkTask 1 .pending 0 0) 32 0)).1.restartCount = 1 ∧
    (perform_download_stream (env200 128 [64, 64]) {} 3
        (mkStream (mkTask 1 .pending 0 0) 32 0)).1.fileBytes = 128 := by
  have hstat : ∀ n, (env200 128 [64, 64]).statusAt n ≠ DownloadStatus.paused ∧
      (env200 128 [64, 64]).statusAt n ≠ DownloadStatus.cancelled := by
    intro n
    constructor <;> simp [env200]
  have h := C6_range_ignored_fallback (env200 128 [64, 64]) {} (mkTask 1 .pending 0 0)
    32 128 [64, 64] 0 3 (fun r => rfl) hstat (by norm_num) (by norm_num)
  exact ⟨h.1, h.2.1, h.2.2.1, h.2.2.2.1⟩

/-- The throttle sleeps for exactly the positive part of
expected_elapsed - actual_elapsed, where expected_elapsed is cumulative
bytes since the resume offset divided by the cap in bytes per second. -/
theorem throttleStep_sleep (sl ex d : Nat) (stT clock : ℚ) :
    throttleStep sl ex d stT clock - clock =
      max 0 (((d : ℚ) - (ex : ℚ)) / ((sl : ℚ) * 1024) - (clock - stT)) := by
  unfold throttleStep
  dsimp only
  split
  · rename_i h
    rw [max_eq_right (by linarith)]
    ring
  · rename_i h
    rw [max_eq_left (by linarith)]
    ring

/-- After the throttle, the elapsed time covers the cumulative bytes at
the cap rate, and the clock never moves backwards. -/
theorem throttleStep_rate (sl ex d : Nat) (stT clock : ℚ) (hsl : 0 < sl) :
    ((d : ℚ) - (ex : ℚ)) ≤ (throttleStep sl ex d stT clock - stT) * ((sl : ℚ) * 1024) ∧
    clock ≤ throttleStep sl ex d stT clock := by
  have hc : (0 : ℚ) < (sl : ℚ) * 1024 := by positivity
  unfold throttleStep
  dsimp only
  split
  · rename_i h
    constructor
    · have he : clock + (((d : ℚ) - ex) / ((sl : ℚ) * 1024) - (clock - stT)) - stT =
          ((d : ℚ) - ex) / ((sl : ℚ) * 1024) := by ring
      rw [he, div_mul_cancel₀ _ (ne_of_gt hc)]
    · linarith
  · rename_i h
    push_neg at h
    constructor
    · calc ((d : ℚ) - ex) = (((d : ℚ) - ex) / ((sl : ℚ) * 1024)) * ((sl : ℚ) * 1024) :=
            (div_mul_cancel₀ _ (ne_of_gt hc)).symm
        _ ≤ (clock - stT) * ((sl : ℚ) * 1024) := by
            exact mul_le_mul_of_nonneg_right h (le_of_lt hc)
    · exact le_refl clock

/-- The write step keeps the throttle invariant when a cap is active:
the throttle restores the rate bound right after every chunk. -/
theorem chunkWrite_inv (sl ex : Nat) (stT now : ℚ) (c : Nat) (st : StreamState)
    (ss : ℚ) (bs : Nat) (hsl : 0 < sl)
    (h2 : st.dbRow.downloadedBytes ≤ st.task.downloadedBytes) :
    throttleInv sl ex stT (chunkWrite sl ex stT now c st ss bs).1 := by
  have hrate := throttleStep_rate sl ex (st.task.downloadedBytes + c) stT st.clock hsl
  unfold chunkWrite commitSt
  dsimp only
  simp only [if_pos hsl]
  repeat' split
  all_goals refine ⟨?_, ?_⟩
  all_goals
    first
      | exact hrate.1
      | exact le_trans h2 (Nat.le_add_right _ _)
      | exact Nat.le_refl _

/-- An interrupted chunk step keeps the throttle invariant (the refresh
reverts the in-memory row to the last committed snapshot). -/
theorem chunkStep_inv_inl (env : NetEnv) (sl ex : Nat) (stT : ℚ) (hsl : 0 < sl)
    (hdelay : ∀ n, 0 ≤ env.readDelay n) :
    ∀ c st lr ss bs out, chunkStep env sl ex stT c st lr ss bs = Sum.inl out →
      throttleInv sl ex stT st → throttleInv sl ex stT out.1 := by
  intro c st lr ss bs out hcs h
  unfold chunkStep at hcs
  dsimp only at hcs
  split at hcs
  · split at hcs
    · cases hcs
      refine ⟨?_, Nat.le_refl _⟩
      have hd := hdelay st.chunkCount
      have hcast : ((st.dbRow.downloadedBytes : ℚ)) ≤ (st.task.downloadedBytes : ℚ) := by
        exact_mod_cast h.2
      have hnonneg : (0 : ℚ) ≤ (sl : ℚ) * 1024 := by positivity
      have hmono : (st.clock - stT) * ((sl : ℚ) * 1024) ≤
          (st.clock + env.readDelay st.chunkCount - stT) * ((sl : ℚ) * 1024) := by
        apply mul_le_mul_of_nonneg_right _ hnonneg
        linarith
      have h1 := h.1
      show ((st.dbRow.downloadedBytes : ℚ) - ex) ≤
        (st.clock + env.readDelay st.chunkCount - stT) * ((sl : ℚ) * 1024)
      linarith
    · cases hcs
  · cases hcs

/-- A continuing chunk step keeps the throttle invariant. -/
theorem chunkStep_inv_inr (env : NetEnv) (sl ex : Nat) (stT : ℚ) (hsl : 0 < sl)
    (hdelay : ∀ n, 0 ≤ env.readDelay n) :
    ∀ c st lr ss bs st2 lr2 ss2 bs2,
      chunkStep env sl ex stT c st lr ss bs = Sum.inr (st2, lr2, ss2, bs2) →
      throttleInv sl ex stT st → throttleInv sl ex stT st2 := by
  intro c st lr ss bs st2 lr2 ss2 bs2 hcs h
  unfold chunkStep at hcs
  dsimp only at hcs
  split at hcs
  · split at hcs
    · cases hcs
    · cases hcs
      exact chunkWrite_inv sl ex stT _ c _ _ _ hsl (Nat.le_refl _)
  · cases hcs
    exact chunkWrite_inv sl ex stT _ c _ _ _ hsl h.2

/-- The whole chunk loop keeps the throttle invariant. -/
theorem runChunks_inv (env : NetEnv) (sl ex : Nat) (stT : ℚ) (hsl : 0 < sl)
    (hdelay : ∀ n, 0 ≤ env.readDelay n) :
    ∀ (chunks : List Nat) (st : StreamState) (lr ss : ℚ) (bs : Nat),
      throttleInv sl ex stT st →
      throttleInv sl ex stT (runChunks env sl ex stT chunks st lr ss bs).1 :=
  runChunks_preserve env sl ex stT (throttleInv sl ex stT)
    (chunkStep_inv_inl env sl ex stT hsl hdelay)
    (chunkStep_inv_inr env sl ex stT hsl hdelay)

/-- C7: with an active cap (the per-task cap when set, otherwise the
global cap, in kb/s), after each written chunk the worker sleeps for
exactly the positive part of expected_elapsed - actual_elapsed, where
expected_elapsed = (cumulative bytes since the resume offset) /
(cap * 1024) — a formula anchored to cumulative bytes, not per-chunk
timing — and consequently at the end of the chunk loop (and at every
chunk boundary, since the bound is an invariant) the bytes written since
the resume offset never exceed elapsed time times the cap. -/
theorem C7_throttle_cumulative (t : Task) (s : DownloadSettingsGlobal) (cap : Nat)
    (hcap : cap = effectiveSpeedLimit t s) (hpos : 0 < cap)
    (env : NetEnv) (hdelay : ∀ n, 0 ≤ env.readDelay n)
    (ex : Nat) (stT : ℚ) (chunks : List Nat) (st : StreamState) (lr ss : ℚ) (bs : Nat)
    (hinv1 : ((st.task.downloadedBytes : ℚ) - (ex : ℚ)) ≤
      (st.clock - stT) * ((cap : ℚ) * 1024))
    (hinv2 : st.dbRow.downloadedBytes ≤ st.task.downloadedBytes) :
    (∀ k2, t.speedLimitKbps = some k2 → k2 ≠ 0 → effectiveSpeedLimit t s = k2) ∧
    (t.speedLimitKbps = none → effectiveSpeedLimit t s = s.globalSpeedLimitKbps) ∧
    (∀ (d2 ex2 : Nat) (stT2 clock2 : ℚ),
      throttleStep cap ex2 d2 stT2 clock2 - clock2 =
        max 0 (((d2 : ℚ) - (ex2 : ℚ)) / ((cap : ℚ) * 1024) - (clock2 - stT2))) ∧
    (((runChunks env cap ex stT chunks st lr ss bs).1.task.downloadedBytes : ℚ) - (ex : ℚ) ≤
      ((runChunks env cap ex stT chunks st lr ss bs).1.clock - stT) * ((cap : ℚ) * 1024)) := by
  refine ⟨?_, ?_, ?_, ?_⟩
  · intro k2 hk2 hne
    unfold effectiveSpeedLimit
    rw [hk2]
    dsimp only
    rw [if_neg hne]
  · intro hnone
    unfold effectiveSpeedLimit
    rw [hnone]
  · intro d2 ex2 stT2 clock2
    exact throttleStep_sleep cap ex2 d2 stT2 clock2
  · exact (runChunks_inv env cap ex stT hpos hdelay chunks st lr ss bs ⟨hinv1, hinv2⟩).1

/-- Witness for C7_throttle_cumulative: a 512 kb/s per-task cap, two
chunks of 64 KiB each arriving instantaneously. -/
theorem C7_throttle_cumulative_witness :
    (((runChunks { respond := fun _ => none } 512 0 0 [65536, 65536]
        (mkStream { mkTask 1 .downloading 0 0 with speedLimitKbps := some 512 } 0 0)
        0 0 0).1.task.downloadedBytes : ℚ) - ((0 : Nat) : ℚ) ≤
      ((runChunks { respond := fun _ => none } 512 0 0 [65536, 65536]
        (mkStream { mkTask 1 .downloading 0 0 with speedLimitKbps := some 512 } 0 0)
        0 0 0).1.clock - 0) * (((512 : Nat) : ℚ) * 1024)) :=
  (C7_throttle_cumulative { mkTask 1 .downloading 0 0 with speedLimitKbps := some 512 }
    {} 512 rfl (by norm_num) { respond := fun _ => none } (fun n => le_refl 0)
    0 0 [65536, 65536]
    (mkStream { mkTask 1 .downloading 0 0 with speedLimitKbps := some 512 } 0 0)
    0 0 0 (by norm_num [mkStream, mkTask]) (by norm_num [mkStream])).2.2.2

/-- The retry branch never touches the progress column. -/
theorem retryOnFailure_progress (s : DownloadSettingsGlobal) (u : Task) (e : String)
    (n : Nat) : (retryOnFailure s u e n).1.progress = u.progress := by
  unfold retryOnFailure
  dsimp only
  split <;> rfl

/-- The write step keeps the progress invariant: the once-per-second
update persists a progress capped at 99.9. -/
theorem chunkWrite_progress (sl ex : Nat) (stT now : ℚ) (c : Nat) (st : StreamState)
    (ss : ℚ) (bs : Nat) (h : progressInv st) :
    progressInv (chunkWrite sl ex stT now c st ss bs).1 := by
  have hcapq : (999 : ℚ) / 10 < 100 := by norm_num
  unfold chunkWrite commitSt
  dsimp only
  repeat' split
  all_goals refine ⟨?_, ?_, ?_⟩
  all_goals
    first
      | exact h.1
      | exact h.2.1
      | exact h.2.2
      | exact lt_of_le_of_lt (min_le_right _ _) hcapq
      | (intro x hx
         rcases List.mem_append.mp hx with hx2 | hx2
         · exact h.2.2 x hx2
         · have hx3 := List.mem_singleton.mp hx2
           subst hx3
           first
             | exact h.1
             | exact lt_of_le_of_lt (min_le_right _ _) hcapq)

/-- An interrupted chunk step keeps the progress invariant. -/
theorem chunkStep_progress_inl (env : NetEnv) (sl ex : Nat) (stT : ℚ) :
    ∀ c st lr ss bs out, chunkStep env sl ex stT c st lr ss bs = Sum.inl out →
      progressInv st → progressInv out.1 := by
  intro c st lr ss bs out hcs h
  unfold chunkStep at hcs
  dsimp only at hcs
  split at hcs
  · split at hcs
    · cases hcs
      exact ⟨h.2.1, h.2.1, h.2.2⟩
    · cases hcs
  · cases hcs

/-- A continuing chunk step keeps the progress invariant. -/
theorem chunkStep_progress_inr (env : NetEnv) (sl ex : Nat) (stT : ℚ) :
    ∀ c st lr ss bs st2 lr2 ss2 bs2,
      chunkStep env sl ex stT c st lr ss bs = Sum.inr (st2, lr2, ss2, bs2) →
      progressInv st → progressInv st2 := by
  intro c st lr ss bs st2 lr2 ss2 bs2 hcs h
  unfold chunkStep at hcs
  dsimp only at hcs
  split at hcs
  · split at hcs
    · cases hcs
    · cases hcs
      exact chunkWrite_progress sl ex stT _ c _ _ _ ⟨h.2.1, h.2.1, h.2.2⟩
  · cases hcs
    exact chunkWrite_progress sl ex stT _ c _ _ _ h

/-- The whole chunk loop keeps the progress invariant. -/
theorem runChunks_progress (env : NetEnv) (sl ex : Nat) (stT : ℚ) :
    ∀ (chunks : List Nat) (st : StreamState) (lr ss : ℚ) (bs : Nat),
      progressInv st → progressInv (runChunks env sl ex stT chunks st lr ss bs).1 :=
  runChunks_preserve env sl ex stT progressInv
    (chunkStep_progress_inl env sl ex stT)
    (chunkStep_progress_inr env sl ex stT)

/-- The whole request loop keeps the progress invariant. -/
theorem attemptLoop_progress (env : NetEnv) (s : DownloadSettingsGlobal) :
    ∀ (fuel ex : Nat) (st : StreamState),
      progressInv st → progressInv (attemptLoop env s fuel ex st).1 := by
  intro fuel
  induction fuel with
  | zero => intro ex st h; exact h
  | succ fuel ih =>
    intro ex st h
    unfold attemptLoop
    rcases henv : env.respond (if 0 < ex then some ex else none) with _ | resp
    · exact h
    · dsimp only
      split
      · split
        · split
          · exact h
          · exact ih 0 _ h
        · exact h
      · repeat' split
        all_goals
          refine runChunks_progress env _ _ _ _ _ _ _ _ ⟨?_, ?_, ?_⟩
        all_goals
          first
            | exact h.1
            | (intro x hx
               rcases List.mem_append.mp hx with hx2 | hx2
               · exact h.2.2 x hx2
               · have hx3 := List.mem_singleton.mp hx2
                 subst hx3
                 exact h.1)

/-- The whole transfer keeps the progress invariant. -/
theorem perform_progress (env : NetEnv) (s : DownloadSettingsGlobal) (fuel : Nat)
    (st : StreamState) (h : progressInv st) :
    progressInv (perform_download_stream env s fuel st).1 := by
  unfold perform_download_stream
  dsimp only
  apply attemptLoop_progress
  refine ⟨h.1, h.1, ?_⟩
  intro x hx
  rcases List.mem_append.mp hx with hx2 | hx2
  · exact h.2.2 x hx2
  · have hx3 := List.mem_singleton.mp hx2
    subst hx3
    exact h.1

/-- C9: a worker invocation whose task row is absent, or whose status is
COMPLETED or CANCELLED at dispatch time, returns at once: no task record
is modified (the store is returned as is and nothing is committed), no
re-dispatch is scheduled and no HTTP request is issued. -/
theorem C9_worker_noop (ctx : WorkerCtx) (tasks : List Task) (fb tid : Nat)
    (h : findTask tasks tid = none ∨
         ∃ t, findTask tasks tid = some t ∧ (t.status = .completed ∨ t.status = .cancelled)) :
    download_media_task ctx tasks fb tid =
      { tasks := tasks, commits := [], redispatch := none, requests := 0 } := by
  unfold download_media_task
  rcases h with h | ⟨t, ht, hst⟩
  · rw [h]
  · rw [ht]
    dsimp only
    rw [if_pos hst]

/-- Witness for C9_worker_noop: re-delivery of a COMPLETED task id is a
no-op. -/
theorem C9_worker_noop_witness :
    download_media_task ctxNoop [mkTask 1 .completed 0 0] 0 1 =
      { tasks := [mkTask 1 .completed 0 0], commits := [], redispatch := none,
        requests := 0 } :=
  C9_worker_noop ctxNoop [mkTask 1 .completed 0 0] 0 1
    (Or.inr ⟨mkTask 1 .completed 0 0, by decide, Or.inl rfl⟩)

/-- C10: the claim concludes that for every task the worker touches,
progress 100.0 implies status COMPLETED.  False as a store invariant:
the manual retry endpoint resets a COMPLETED task (progress 100.0) to
PENDING without resetting progress, and the worker then picks it up and
commits its promotion snapshot with progress 100.0 while the status is
DOWNLOADING. -/
theorem C10_counterexample :
    retry_download [{ mkTask 1 .completed 0 0 with progress := 100 }] 1 =
      .ok [{ mkTask 1 .pending 0 0 with progress := 100 }] ∧
    (download_media_task ctxTrivial
        [{ mkTask 1 .pending 0 0 with progress := 100 }] 0 1).commits.head? =
      some { mkTask 1 .downloading 0 0 with
              progress := 100, startedAt := some 0, taskId := some "celery-task" } ∧
    ({ mkTask 1 .downloading 0 0 with
        progress := 100, startedAt := some 0, taskId := some "celery-task" } : Task).progress
      = 100 ∧
    ({ mkTask 1 .downloading 0 0 with
        progress := 100, startedAt := some 0, taskId := some "celery-task" } : Task).status
      ≠ .completed := by
  decide

/-- C10 (amended): every periodic progress update during streaming
persists a progress of at most 99.9, and the worker writes progress 100.0
only in the same commit that sets status COMPLETED; hence for every task
the worker picks up with progress below 100 (every task except one
re-queued by the manual retry endpoint after completion, which resets
status but not progress), every snapshot the worker commits satisfies:
progress = 100.0 implies status COMPLETED. -/
theorem C10_progress_only_at_completion (ctx : WorkerCtx) (tasks : List Task)
    (fb tid : Nat) (t : Task) (ht : findTask tasks tid = some t)
    (hp : t.progress < 100) :
    ∀ c ∈ (download_media_task ctx tasks fb tid).commits,
      c.progress = 100 → c.status = .completed := by
  unfold download_media_task
  rw [ht]
  dsimp only
  split
  · intro c hc
    simp at hc
  · split
    · intro c hc
      simp at hc
    · split
      · intro c hc hprog
        exfalso
        have hc1 : c = (retryOnFailure ctx.settings t "path resolution error" ctx.now).1 := by
          simpa using hc
        rw [hc1, retryOnFailure_progress] at hprog
        rw [hprog] at hp
        exact absurd hp (by norm_num)
      · have hinv : progressInv (perform_download_stream ctx.env ctx.settings ctx.fuel
            { task := promoteTask t ctx.now ctx.dispatchId,
              dbRow := promoteTask t ctx.now ctx.dispatchId,
              commits := [promoteTask t ctx.now ctx.dispatchId],
              fileBytes := fb, clock := ctx.clock0 }).1 := by
          apply perform_progress
          refine ⟨hp, hp, ?_⟩
          intro x hx
          have hx2 := List.mem_singleton.mp hx
          subst hx2
          exact hp
        split
        · intro c hc hprog
          rcases List.mem_append.mp hc with hc2 | hc2
          · exact absurd hprog (by have := hinv.2.2 c hc2; intro he; rw [he] at this; exact absurd this (by norm_num))
          · have hc3 := List.mem_singleton.mp hc2
            subst hc3
            rfl
        · intro c hc hprog
          exfalso
          have := hinv.2.2 c hc
          rw [hprog] at this
          exact absurd this (by norm_num)
        · intro c hc hprog
          exfalso
          rcases List.mem_append.mp hc with hc2 | hc2
          · have := hinv.2.2 c hc2
            rw [hprog] at this
            exact absurd this (by norm_num)
          · have hc3 := List.mem_singleton.mp hc2
            subst hc3
            rw [retryOnFailure_progress] at hprog
            have := hinv.2.1
            rw [hprog] at this
            exact absurd this (by norm_num)
        · intro c hc hprog
          exfalso
          have := hinv.2.2 c hc
          rw [hprog] at this
          exact absurd this (by norm_num)

/-- Witness for C10_progress_only_at_completion: in the trivial run the
completion snapshot is a committed snapshot with progress 100, and the
theorem yields that its status is COMPLETED. -/
theorem C10_progress_only_at_completion_witness :
    exDoneTask ∈ (download_media_task ctxTrivial [mkTask 1 .pending 0 0] 0 1).commits ∧
    exDoneTask.status = .completed :=
  ⟨by decide,
   C10_progress_only_at_completion ctxTrivial [mkTask 1 .pending 0 0] 0 1
     (mkTask 1 .pending 0 0) (by decide) (by norm_num [mkTask])
     exDoneTask (by decide) (by decide)⟩

end XtreamDL
